import Mathlib

/-!
# Verification of the fake-sql schema parser and SQL statement generator

Shallow embedding of `src/main.rs` / `src/models.rs` (the two files contain the
same `Table`/`Column` implementation; `models.rs` adds doc comments and tests).

Modelling conventions:
* Rust `String`/`&str` values are Lean `String` (a wrapper around `List Char`);
  character-level processing is done on `List Char`.
* Rust panics (out-of-bounds indexing, `unwrap` on `None`) are modelled by
  `Option`: a function that can panic returns `none` exactly on the inputs
  where the Rust code panics.
* Machine integers (`i32`) are `Nat` with an explicit range check where the
  Rust code can fail (`str::parse::<i32>` overflow).
* `rand::thread_rng` draws are modelled by explicitly injected `Draw` values;
  range postconditions of `gen_range` (`1..100`, `0..3`, ...) become theorem
  hypotheses where they matter.
* `chrono` dates are day numbers (days since 0000-03-01, proleptic Gregorian);
  `chrono::Local::today()` is an explicitly injected day number.
* The inputs handled here are ASCII, so `to_lowercase`, `trim`,
  `char::is_whitespace` and the regex classes `\s`, `\d`, `[a-zA-Z]` are
  modelled on their ASCII fragment.
-/

namespace FakeSql

/-! ## Character classes and basic string helpers -/

/-- ASCII whitespace, the fragment of Rust `char::is_whitespace` and of the
regex class `\s` exercised by this program. -/
def isWs (c : Char) : Bool :=
  c = ' ' || c = '\t' || c = '\n' || c = '\r'

/-- The regex class `\d`. -/
def isDigit (c : Char) : Bool :=
  '0' ≤ c && c ≤ '9'

/-- The regex class `[a-zA-Z]` (after lowercasing only `[a-z]` occurs). -/
def isAlpha (c : Char) : Bool :=
  ('a' ≤ c && c ≤ 'z') || ('A' ≤ c && c ≤ 'Z')

/-- ASCII lowercasing of one character (Rust `str::to_lowercase`). -/
def toLowerChar (c : Char) : Char :=
  if 'A' ≤ c && c ≤ 'Z' then Char.ofNat (c.toNat + 32) else c

/-- Rust `str::to_lowercase`. -/
def toLowerL (l : List Char) : List Char :=
  l.map toLowerChar

/-- Rust `str::trim` (both ends). -/
def trimL (l : List Char) : List Char :=
  ((l.dropWhile isWs).reverse.dropWhile isWs).reverse

/-- Fuel-driven loop of Rust `str::trim_start_matches pat`: repeatedly strip a
leading occurrence of `pat`.  Each successful strip removes at least one
character (the pattern used by the program is nonempty), so fuel
`l.length + 1` makes the loop run to completion. -/
def trimStartMatchesAux (pat : List Char) : Nat → List Char → List Char
  | 0, l => l
  | fuel + 1, l =>
    if !pat.isEmpty && pat.isPrefixOf l then
      trimStartMatchesAux pat fuel (l.drop pat.length)
    else l

/-- Rust `str::trim_start_matches`. -/
def trimStartMatchesL (pat l : List Char) : List Char :=
  trimStartMatchesAux pat (l.length + 1) l

/-- Split at the first occurrence of `sep`; `none` when `sep` does not occur.
Models Rust `splitn(2, sep)` together with the panicking index `[1]`. -/
def splitFirst (sep : Char) : List Char → Option (List Char × List Char)
  | [] => none
  | c :: cs =>
    if c = sep then some ([], cs)
    else (splitFirst sep cs).map fun p => (c :: p.1, p.2)

/-- Everything strictly before the last occurrence of `sep`; `none` when `sep`
does not occur.  Models Rust `rsplitn(2, sep).collect()[1]` together with the
panicking index. -/
def beforeLast (sep : Char) (l : List Char) : Option (List Char) :=
  (splitFirst sep l.reverse).map fun p => p.2.reverse

/-- Rust `str::split(sep)`: split at every occurrence, keeping empty pieces. -/
def splitOnChar (sep : Char) : List Char → List (List Char)
  | [] => [[]]
  | c :: cs =>
    if c = sep then [] :: splitOnChar sep cs
    else
      match splitOnChar sep cs with
      | [] => [[c]]
      | p :: ps => (c :: p) :: ps

/-- Accumulator loop for `splitWhitespaceL`. -/
def splitWsGo : List Char → List Char → List String
  | acc, [] => if acc.isEmpty then [] else [acc.reverse.asString]
  | acc, c :: cs =>
    if isWs c then
      if acc.isEmpty then splitWsGo [] cs
      else acc.reverse.asString :: splitWsGo [] cs
    else splitWsGo (c :: acc) cs

/-- Rust `str::split_whitespace`: maximal nonempty runs of non-whitespace. -/
def splitWhitespaceL (l : List Char) : List String :=
  splitWsGo [] l

/-- Rust `trim_matches(|c| c == '(' || c == ')')`. -/
def isParen (c : Char) : Bool :=
  c = '(' || c = ')'

/-- Strip parentheses from both ends of a token. -/
def trimParens (s : String) : String :=
  (((s.data.dropWhile isParen).reverse.dropWhile isParen).reverse).asString

/-! ## Decimal rendering of natural numbers (Rust integer `Display`) -/

/-- One decimal digit character. -/
def digitChar : Nat → Char
  | 0 => '0' | 1 => '1' | 2 => '2' | 3 => '3' | 4 => '4'
  | 5 => '5' | 6 => '6' | 7 => '7' | 8 => '8' | _ => '9'

/-- Fuel-driven big-endian decimal digits of `n`; fuel `n + 1` always
suffices since the value shrinks by a factor of ten per step. -/
def natDigits : Nat → Nat → List Char
  | 0, _ => []
  | fuel + 1, n =>
    if n < 10 then [digitChar n]
    else natDigits fuel (n / 10) ++ [digitChar (n % 10)]

/-- Rust `format!` rendering of a nonnegative integer. -/
def natToStr (n : Nat) : String :=
  (natDigits (n + 1) n).asString

/-- Value of an all-digit token (used to model `str::parse::<i32>`). -/
def natOfDigits (l : List Char) : Nat :=
  l.foldl (fun a c => a * 10 + (c.toNat - 48)) 0

/-- Rust `str::parse::<i32>().ok()` on a regex-extracted run: succeeds exactly
on nonempty all-digit runs whose value fits in an `i32`. -/
def parseI32 (l : List Char) : Option Nat :=
  if !l.isEmpty && l.all isDigit && natOfDigits l ≤ 2147483647 then
    some (natOfDigits l)
  else none

/-! ## Calendar arithmetic (chrono `NaiveDate` as a day number)

Day numbers count days since 0000-03-01 in the proleptic Gregorian calendar
(Howard Hinnant's `civil_from_days` / `days_from_civil` algorithm, specialised
to nonnegative values, which covers every date this program manipulates). -/

/-- Day number of a civil date `(y, m, d)` with `1 ≤ m ≤ 12`, `y ≥ 1`. -/
def civilToDaysN (y m d : Nat) : Nat :=
  let y' := if m ≤ 2 then y - 1 else y
  let era := y' / 400
  let yoe := y' % 400
  let mp := if 2 < m then m - 3 else m + 9
  let doy := (153 * mp + 2) / 5 + d - 1
  let doe := yoe * 365 + yoe / 4 - yoe / 100 + doy
  era * 146097 + doe

/-- Civil date `(y, m, d)` of a day number. -/
def daysToCivilN (z : Nat) : Nat × Nat × Nat :=
  let era := z / 146097
  let doe := z % 146097
  let yoe := (doe - doe / 1460 + doe / 36524 - doe / 146096) / 365
  let y := yoe + era * 400
  let doy := doe - (365 * yoe + yoe / 4 - yoe / 100)
  let mp := (5 * doy + 2) / 153
  let d := doy - (153 * mp + 2) / 5 + 1
  let m := if mp < 10 then mp + 3 else mp - 9
  (if m ≤ 2 then y + 1 else y, m, d)

/-- Zero-padded two-digit field of the `%Y-%m-%d` format. -/
def pad2 (n : Nat) : String :=
  if n < 10 then "0" ++ natToStr n else natToStr n

/-- Zero-padded four-digit year of the `%Y-%m-%d` format. -/
def pad4 (n : Nat) : String :=
  if n < 10 then "000" ++ natToStr n
  else if n < 100 then "00" ++ natToStr n
  else if n < 1000 then "0" ++ natToStr n
  else natToStr n

/-- chrono's `Display` for `NaiveDate` (`YYYY-MM-DD`). -/
def daysToDateStr (z : Nat) : String :=
  pad4 (daysToCivilN z).1 ++ "-" ++ pad2 (daysToCivilN z).2.1 ++ "-" ++
    pad2 (daysToCivilN z).2.2

/-! ## The regex operations used by `init_via_sql` -/

/-- Fuel-driven scan of `Regex::replace_all` for the pattern
`(\d+)\s*,\s*(\d+)` with replacement `$1.$2`: at each position, a maximal
digit run followed by optional whitespace, a comma, optional whitespace and a
second maximal digit run is rewritten `d1.d2`, and scanning resumes after the
match; otherwise one character is emitted unchanged.  (A failed match starting
inside a digit run fails for every later start inside the same run, so the
character-by-character retry is equivalent to the regex engine's behaviour.) -/
def precNormAux : Nat → List Char → List Char
  | 0, l => l
  | _ + 1, [] => []
  | fuel + 1, c :: cs =>
    if isDigit c then
      let d1 := (c :: cs).takeWhile isDigit
      let rest1 := ((c :: cs).dropWhile isDigit).dropWhile isWs
      match rest1 with
      | ',' :: rest2 =>
        let rest3 := rest2.dropWhile isWs
        let d2 := rest3.takeWhile isDigit
        if d2.isEmpty then c :: precNormAux fuel cs
        else d1 ++ '.' :: d2 ++ precNormAux fuel (rest3.dropWhile isDigit)
      | _ => c :: precNormAux fuel cs
    else c :: precNormAux fuel cs

/-- The precision-comma normalization (step 4 of the parser): rewrite every
`digits , digits` to `digits.digits` over the whole column-body string. -/
def precisionNormalize (l : List Char) : List Char :=
  precNormAux (l.length + 1) l

/-- Fuel-driven scan of `Regex::find_iter` for `([a-zA-Z]+)|(\d+)`: the
maximal letter runs and digit runs of the input, in order. -/
def findRunsAux : Nat → List Char → List (List Char)
  | 0, _ => []
  | _ + 1, [] => []
  | fuel + 1, c :: cs =>
    if isAlpha c then
      (c :: cs).takeWhile isAlpha :: findRunsAux fuel ((c :: cs).dropWhile isAlpha)
    else if isDigit c then
      (c :: cs).takeWhile isDigit :: findRunsAux fuel ((c :: cs).dropWhile isDigit)
    else findRunsAux fuel cs

/-- All alternating letter/digit runs of a type descriptor token. -/
def findRuns (l : List Char) : List (List Char) :=
  findRunsAux (l.length + 1) l

/-! ## Data model (`struct Column`, `struct Table`) -/

/-- `struct Column` of the Rust source.  `length` and `decimal_places` hold
the nonnegative `i32` values produced by `parse::<i32>` on digit runs. -/
structure Column where
  name : String
  column_type : String
  length : Option Nat
  decimal_places : Option Nat
  is_nullable : Bool
  is_pkey : Bool
  ref_table : Option String
  ref_column : Option String
deriving DecidableEq, Repr

/-- `struct Table` of the Rust source. -/
structure Table where
  name : String
  columns : List Column
  comment : Option String
deriving DecidableEq, Repr

/-! ## The parser (`Table::parse_references`, `Table::init_via_sql`) -/

/-- `Table::parse_references`: find the first token `references`; the next
token is the referenced table and the token after that, with surrounding
parentheses stripped, the referenced column. -/
def parseReferences : List String → Option String × Option String
  | [] => (none, none)
  | t :: rest =>
    if t = "references" then (rest.get? 0, (rest.get? 1).map trimParens)
    else parseReferences rest

/-- `Option.map`-free exact model of the per-chunk loop body of
`init_via_sql`: `none` exactly when the Rust code panics
(`column_parts[0]` / `column_parts[1]` on a chunk with fewer than two
whitespace tokens). -/
def parseColumn (chunk : List Char) : Option Column :=
  let tokens := splitWhitespaceL (trimL chunk)
  match tokens with
  | name :: typeTok :: _ =>
    let runs := findRuns typeTok.data
    let pkey := tokens.contains "primary" && tokens.contains "key"
    let refs := parseReferences tokens
    some
      { name := name
        column_type := (runs.getD 0 []).asString
        length := (runs.get? 1).bind parseI32
        decimal_places := (runs.get? 2).bind parseI32
        is_nullable := !pkey
        is_pkey := pkey
        ref_table := refs.1
        ref_column := refs.2 }
  | _ => none

/-- Steps 1–5 of `init_via_sql`: lowercase and trim, strip the literal
`create table ` text, split on the first `(` into table name and remainder,
drop everything from the last `)` on, normalize precision commas, split the
result on `,`.  `none` exactly where the Rust code panics (no `(`, or no `)`
after it). -/
def parseHead (input : String) : Option (String × List (List Char)) :=
  let s := trimL (toLowerL input.data)
  let s := trimStartMatchesL ("create table ".data) s
  match splitFirst '(' s with
  | none => none
  | some (namePart, rest) =>
    match beforeLast ')' rest with
    | none => none
    | some bodyRaw =>
      some ((trimL namePart).asString,
        splitOnChar ',' (precisionNormalize (trimL bodyRaw)))

/-- The column chunks a DDL string is split into (the denominator of claim
C1): the top-level comma-separated pieces after precision-comma
normalization. -/
def columnChunks (input : String) : Option (List (List Char)) :=
  (parseHead input).map (·.2)

/-- `List.mapM` over `Option`, written structurally: the per-chunk loop of
`init_via_sql`, which stops (panics) at the first failing chunk. -/
def mapOption (f : α → Option β) : List α → Option (List β)
  | [] => some []
  | a :: as =>
    match f a, mapOption f as with
    | some b, some bs => some (b :: bs)
    | _, _ => none

/-- `Table::init_via_sql`.  `none` exactly when the Rust code panics. -/
def initViaSql (input : String) : Option Table :=
  (parseHead input).bind fun p =>
    (mapOption parseColumn p.2).map fun cols =>
      { name := p.1, columns := cols, comment := none }

/-! ## Randomness model for the generator -/

/-- One bundle of `thread_rng` draws, enough for any single per-column
synthesis step.  The generating loop guarantees `num ∈ [1,100)`,
`op ∈ [0,5)`, `strCount ∈ [2,11)`, `strPick i ∈ [0,4)` and `dayOff ∈ [0,3)`;
theorems assume those ranges where they matter. -/
structure Draw where
  num : Nat
  op : Nat
  strCount : Nat
  strPick : Nat → Nat
  dayOff : Nat

/-- The operator pool of the numeric predicate branch. -/
def opList : List String := ["=", ">", "<", ">=", "<="]

/-- The fixed name pool of the varchar/text branches. -/
def namePool : List String := ["Alice", "Bob", "Charlie", "David"]

/-- Rust `Vec::join(sep)`. -/
def joinSep (sep : String) : List String → String
  | [] => ""
  | [s] => s
  | s :: ss => s ++ sep ++ joinSep sep ss

/-! ## Fixed-point decimal rendering (`format!` with a precision)

`format!("{:.d$}", n as f64 / 10f64.powi(d))` for `1 ≤ n < 100`: the exact
value `n / 10^d` printed with exactly `d` fractional digits, i.e. the digits
of `n / 10^d` and the `d` low decimal digits of `n`, zero padded.  (The `f64`
division is modelled exactly; for the magnitudes this program produces the
double rounding never changes the printed `d`-digit result.) -/

/-- The `d` low decimal digits of `n`, big-endian, zero padded to width `d`. -/
def fracDigitsOf (n : Nat) : Nat → List Char
  | 0 => []
  | d + 1 => fracDigitsOf (n / 10) d ++ [digitChar (n % 10)]

/-- `format!("{:.d$}", ...)` on the exact value `n / 10^d`; with precision
`0` Rust prints no decimal point at all. -/
def formatFixedL (n d : Nat) : List Char :=
  if d = 0 then (natToStr n).data
  else (natToStr (n / 10 ^ d)).data ++ '.' :: fracDigitsOf n d

/-- String form of `formatFixedL`. -/
def formatFixed (n d : Nat) : String :=
  (formatFixedL n d).asString

/-- The start date of a synthesized BETWEEN clause:
`NaiveDate::from_ymd(2021, 1, 1) + Duration::days(dayOff)` as a day number. -/
def betweenStart (dayOff : Nat) : Nat :=
  civilToDaysN 2021 1 1 + dayOff

/-- One arm of the `match column.column_type.as_str()` dispatch of
`generate_where_clause`; `none` models the `_ => continue` arm.  `today` is
the day number of `chrono::Local::today()`. -/
def whereCondition (today : Nat) (c : Column) (d : Draw) : Option String :=
  if c.column_type = "int" ∨ c.column_type = "number" then
    some (c.name ++ " " ++ ((opList.get? d.op).getD "=") ++ " " ++ natToStr d.num)
  else if c.column_type = "varchar" ∨ c.column_type = "text" then
    some (c.name ++ " IN (" ++
      joinSep ", " ((List.range d.strCount).map fun i =>
        "'" ++ ((namePool.get? (d.strPick i)).getD "Alice") ++ "'") ++ ")")
  else if c.column_type = "date" ∨ c.column_type = "datetime" then
    some (c.name ++ " BETWEEN to_date('" ++ daysToDateStr (betweenStart d.dayOff) ++
      "','YYYY-MM-DD') AND to_date('" ++ daysToDateStr today ++ "','YYYY-MM-DD')")
  else none

/-- The condition-collecting loop of `generate_where_clause`, with the `i`-th
column consuming the `i`-th draw. -/
def whereConds (today : Nat) : List Column → (Nat → Draw) → Nat → List String
  | [], _, _ => []
  | c :: cs, rand, i =>
    match whereCondition today c (rand i) with
    | some s => s :: whereConds today cs rand (i + 1)
    | none => whereConds today cs rand (i + 1)

/-- `Table::generate_where_clause`. -/
def generateWhereClause (today : Nat) (t : Table) (rand : Nat → Draw) : String :=
  joinSep " AND " (whereConds today t.columns rand 0)

/-- The per-column value of the `SqlType::Insert` arm of `Table::generate`. -/
def insertValue (today : Nat) (c : Column) (d : Draw) : String :=
  if c.column_type = "varchar" ∨ c.column_type = "text" then
    "'" ++ ((namePool.get? (d.strPick 0)).getD "Alice") ++ "'"
  else if c.column_type = "date" ∨ c.column_type = "datetime" then
    "to_date('" ++ daysToDateStr today ++ "','YYYY-MM-DD')"
  else if c.column_type = "number" ∧ c.decimal_places.isSome = true then
    formatFixed d.num (c.decimal_places.getD 0)
  else natToStr d.num

/-- The value-collecting loop of the `Insert` arm. -/
def insertValues (today : Nat) : List Column → (Nat → Draw) → Nat → List String
  | [], _, _ => []
  | c :: cs, rand, i =>
    insertValue today c (rand i) :: insertValues today cs rand (i + 1)

/-- The per-column assigned value of the `SqlType::Update` arm (a duplicate
of the Insert dispatch in the Rust source). -/
def updateValue (today : Nat) (c : Column) (d : Draw) : String :=
  if c.column_type = "varchar" ∨ c.column_type = "text" then
    "'" ++ ((namePool.get? (d.strPick 0)).getD "Alice") ++ "'"
  else if c.column_type = "date" ∨ c.column_type = "datetime" then
    "to_date('" ++ daysToDateStr today ++ "','YYYY-MM-DD')"
  else if c.column_type = "number" ∧ c.decimal_places.isSome = true then
    formatFixed d.num (c.decimal_places.getD 0)
  else natToStr d.num

/-- The assignment-collecting loop of the `Update` arm. -/
def updateAssigns (today : Nat) : List Column → (Nat → Draw) → Nat → List String
  | [], _, _ => []
  | c :: cs, rand, i =>
    (c.name ++ " = " ++ updateValue today c (rand i)) ::
      updateAssigns today cs rand (i + 1)

/-- The per-column clause of the `SqlType::CreateTable` arm: the rendered
column text together with the trailing separator, which is present exactly
when the column's name differs from the name of the table's last column. -/
def createColumnClause (lastName : String) (c : Column) : String :=
  c.name ++ " " ++ c.column_type ++
    (match c.length with
      | some l =>
        match c.decimal_places with
        | some dp => "(" ++ natToStr l ++ "," ++ natToStr dp ++ ")"
        | none => "(" ++ natToStr l ++ ")"
      | none => "") ++
    (if c.is_nullable then "" else " NOT NULL") ++
    (if c.is_pkey then " PRIMARY KEY" else "") ++
    (if lastName ≠ c.name then ", " else "")

/-- The `SqlType::CreateTable` arm of `Table::generate`; `none` models the
`self.columns.last().unwrap()` panic on an empty column list. -/
def createTableSql (t : Table) : Option String :=
  match t.columns.getLast? with
  | none => none
  | some lastCol =>
    some ((t.columns.foldl (fun acc c => acc ++ createColumnClause lastCol.name c)
      ("CREATE TABLE " ++ t.name ++ " (")) ++ ");")

/-- The `SqlType::Insert` arm of `Table::generate`. -/
def generateInsert (today : Nat) (t : Table) (rand : Nat → Draw) : String :=
  "INSERT INTO " ++ t.name ++ " (" ++
    joinSep ", " (t.columns.map Column.name) ++ ") VALUES (" ++
    joinSep ", " (insertValues today t.columns rand 0) ++ ");"

/-- The `SqlType::Select` arm of `Table::generate`. -/
def generateSelect (today : Nat) (t : Table) (rand : Nat → Draw) : String :=
  "SELECT " ++ joinSep ", " (t.columns.map Column.name) ++ " FROM " ++
    t.name ++ " WHERE " ++ generateWhereClause today t rand ++ ";"

/-- The `SqlType::Update` arm of `Table::generate`; `randSet` feeds the SET
assignments and `randWhere` the predicate. -/
def generateUpdate (today : Nat) (t : Table) (randSet randWhere : Nat → Draw) : String :=
  "UPDATE " ++ t.name ++ " SET " ++
    joinSep ", " (updateAssigns today t.columns randSet 0) ++ " WHERE " ++
    generateWhereClause today t randWhere ++ ";"

/-- The `SqlType::Delete` arm of `Table::generate`. -/
def generateDelete (today : Nat) (t : Table) (rand : Nat → Draw) : String :=
  "DELETE FROM " ++ t.name ++ " WHERE " ++ generateWhereClause today t rand ++ ";"

/-! ## Spec-side definitions

These two definitions follow the words of the specification (not the source);
each is compared against the corresponding source-derived definition in the
theorems below. -/

/-- Spec-side wording of claim C5: the rendered clause of one column,
`name type[(length[,decimalPlaces])][ NOT NULL][ PRIMARY KEY]`, without any
separator. -/
def specColumnClause (c : Column) : String :=
  c.name ++ " " ++ c.column_type ++
    (match c.length with
      | some l =>
        match c.decimal_places with
        | some dp => "(" ++ natToStr l ++ "," ++ natToStr dp ++ ")"
        | none => "(" ++ natToStr l ++ ")"
      | none => "") ++
    (if c.is_nullable then "" else " NOT NULL") ++
    (if c.is_pkey then " PRIMARY KEY" else "")

/-- Concatenation of a list of strings (used to assemble the spec-side
CreateTable rendering). -/
def concatAll : List String → String
  | [] => ""
  | s :: ss => s ++ concatAll ss

/-- Spec-side wording of claim C5: `CREATE TABLE <name> (` followed by the
column clauses, a trailing `, ` after every column whose name differs from
the last column's name, then `);`. -/
def specCreateTable (t : Table) (lastName : String) : String :=
  "CREATE TABLE " ++ t.name ++ " (" ++
    concatAll (t.columns.map fun c =>
      specColumnClause c ++ (if c.name = lastName then "" else ", ")) ++ ");"

/-- Spec-side wording of claim C8: the token list contains `primary` followed
anywhere later by `key`. -/
def specOrderedPrimaryKey : List String → Bool
  | [] => false
  | t :: rest => (t = "primary" && rest.contains "key") || specOrderedPrimaryKey rest

/-- The column types recognized by predicate synthesis; every other type is
opaque and contributes no clause. -/
def opaqueType (ty : String) : Prop :=
  ty ≠ "int" ∧ ty ≠ "number" ∧ ty ≠ "varchar" ∧ ty ≠ "text" ∧
    ty ≠ "date" ∧ ty ≠ "datetime"

instance (ty : String) : Decidable (opaqueType ty) := by
  unfold opaqueType; infer_instance

/-! ## Helper lemmas -/

theorem mapOption_length {f : α → Option β} :
    ∀ {l : List α} {l' : List β}, mapOption f l = some l' → l'.length = l.length := by
  intro l
  induction l with
  | nil => intro l' h; simp [mapOption] at h; simp [← h]
  | cons a as ih =>
    intro l' h
    simp only [mapOption] at h
    cases hf : f a with
    | none => rw [hf] at h; simp at h
    | some b =>
      rw [hf] at h
      cases hm : mapOption f as with
      | none => rw [hm] at h; simp at h
      | some bs =>
        rw [hm] at h
        simp only [Option.some.injEq] at h
        subst h
        simp [ih hm]

theorem mapOption_eq_none {f : α → Option β} :
    ∀ {l : List α}, mapOption f l = none ↔ ∃ a ∈ l, f a = none := by
  intro l
  induction l with
  | nil => simp [mapOption]
  | cons a as ih =>
    simp only [mapOption, List.mem_cons]
    cases hf : f a with
    | none => simp [hf]
    | some b =>
      cases hm : mapOption f as with
      | none =>
        simp only [true_iff]
        obtain ⟨x, hx, hfx⟩ := ih.mp hm
        exact ⟨x, Or.inr hx, hfx⟩
      | some bs =>
        constructor
        · intro h; exact absurd h (by simp)
        · rintro ⟨x, hx, hfx⟩
          rcases hx with h | h
          · subst h; rw [hf] at hfx; exact absurd hfx (by simp)
          · have h2 := ih.mpr ⟨x, h, hfx⟩
            rw [hm] at h2
            exact absurd h2 (by simp)

theorem mapOption_mem {f : α → Option β} :
    ∀ {l : List α} {l' : List β}, mapOption f l = some l' →
      ∀ b ∈ l', ∃ a ∈ l, f a = some b := by
  intro l
  induction l with
  | nil =>
    intro l' h b hb
    simp [mapOption] at h
    subst h
    simp at hb
  | cons a as ih =>
    intro l' h b hb
    simp only [mapOption] at h
    cases hf : f a with
    | none => rw [hf] at h; simp at h
    | some b' =>
      rw [hf] at h
      cases hm : mapOption f as with
      | none => rw [hm] at h; simp at h
      | some bs =>
        rw [hm] at h
        simp only [Option.some.injEq] at h
        subst h
        rcases List.mem_cons.mp hb with h | h
        · exact ⟨a, List.mem_cons_self a as, by rw [hf, h]⟩
        · obtain ⟨x, hx, hfx⟩ := ih hm b h
          exact ⟨x, List.mem_cons_of_mem a hx, hfx⟩

/-- The Rust loop body panics exactly on chunks with fewer than two
whitespace tokens. -/
theorem parseColumn_eq_none {chunk : List Char} :
    parseColumn chunk = none ↔ (splitWhitespaceL (trimL chunk)).length < 2 := by
  unfold parseColumn
  cases h : splitWhitespaceL (trimL chunk) with
  | nil => simp
  | cons a l =>
    cases l with
    | nil => simp
    | cons b l' => simp

/-- Shape of a successfully parsed column: the chunk has at least two tokens
and every field is determined by the token list. -/
theorem parseColumn_eq_some {chunk : List Char} {c : Column}
    (h : parseColumn chunk = some c) :
    ∃ name typeTok rest, splitWhitespaceL (trimL chunk) = name :: typeTok :: rest ∧
      c = { name := name
            column_type := ((findRuns typeTok.data).getD 0 []).asString
            length := ((findRuns typeTok.data).get? 1).bind parseI32
            decimal_places := ((findRuns typeTok.data).get? 2).bind parseI32
            is_nullable := !((name :: typeTok :: rest).contains "primary" &&
                (name :: typeTok :: rest).contains "key")
            is_pkey := (name :: typeTok :: rest).contains "primary" &&
                (name :: typeTok :: rest).contains "key"
            ref_table := (parseReferences (name :: typeTok :: rest)).1
            ref_column := (parseReferences (name :: typeTok :: rest)).2 } := by
  unfold parseColumn at h
  cases htk : splitWhitespaceL (trimL chunk) with
  | nil => rw [htk] at h; simp at h
  | cons a l =>
    cases l with
    | nil => rw [htk] at h; simp at h
    | cons b l' =>
      rw [htk] at h
      simp only [Option.some.injEq] at h
      exact ⟨a, b, l', rfl, h.symm⟩

theorem foldl_append_concatAll (f : α → String) :
    ∀ (l : List α) (init : String),
      l.foldl (fun acc c => acc ++ f c) init = init ++ concatAll (l.map f)
  | [], init => by simp [concatAll, String.append_empty]
  | c :: cs, init => by
    simp only [List.foldl_cons, List.map_cons, concatAll]
    rw [foldl_append_concatAll f cs (init ++ f c), String.append_assoc]

/-- Opaque column types hit the `_ => continue` arm of the predicate
dispatch. -/
theorem whereCondition_eq_none {today : Nat} {c : Column} {d : Draw}
    (h : opaqueType c.column_type) : whereCondition today c d = none := by
  obtain ⟨h1, h2, h3, h4, h5, h6⟩ := h
  unfold whereCondition
  rw [if_neg (by tauto), if_neg (by tauto), if_neg (by tauto)]

theorem whereConds_eq_nil {today : Nat} :
    ∀ (cs : List Column) (rand : Nat → Draw) (i : Nat),
      (∀ c ∈ cs, opaqueType c.column_type) → whereConds today cs rand i = [] := by
  intro cs
  induction cs with
  | nil => intro rand i _; rfl
  | cons c cs' ih =>
    intro rand i h
    unfold whereConds
    rw [whereCondition_eq_none (h c (List.mem_cons_self c cs'))]
    exact ih rand (i + 1) (fun x hx => h x (List.mem_cons_of_mem c hx))

/-! ## Claim theorems -/

/-- C1: for every DDL string that `init_via_sql` accepts, the number of
columns of the returned Table equals the number of top-level comma-separated
column chunks obtained after the precision-comma normalization has rewritten
every `digits , digits` occurrence to `digits.digits` over the whole
column-body string. -/
theorem parse_columns_length_eq_chunks (s : String)
    (h : (initViaSql s).isSome = true) :
    (initViaSql s).map (fun t => t.columns.length) =
      (columnChunks s).map List.length := by
  unfold initViaSql at h ⊢
  unfold columnChunks
  cases hp : parseHead s with
  | none => rw [hp] at h; simp at h
  | some p =>
    rw [hp] at h
    simp only [Option.some_bind] at h
    cases hm : mapOption parseColumn p.2 with
    | none => rw [hm] at h; simp at h
    | some cols =>
      simp only [Option.some_bind, hm, Option.map_some', Option.some.injEq]
      exact mapOption_length hm

/-- C1 witness: the DDL `create table p (a number(10, 2))` has one chunk
after normalization (`number(10, 2)` does not split a column) and parses to
one column. -/
theorem parse_columns_length_eq_chunks_witness :
    (initViaSql "create table p (a number(10, 2))").map (fun t => t.columns.length) =
      (columnChunks "create table p (a number(10, 2))").map List.length :=
  parse_columns_length_eq_chunks _ (by decide)

/-- C2 counterexample: an input missing the `create table` prefix (but with a
parenthesized body) is NOT rejected — `init_via_sql` silently returns a fully
populated Table whose name absorbs the unstripped text. -/
theorem missing_prefix_silently_parses :
    initViaSql "make table t (id int)" =
      some { name := "make table t"
             columns := [{ name := "id", column_type := "int", length := none,
                           decimal_places := none, is_nullable := true,
                           is_pkey := false, ref_table := none, ref_column := none }]
             comment := none } := by decide

/-- C2 (amended): `init_via_sql` aborts (panics, modelled `none`) exactly when
the input lacks a `(`, lacks a later `)`, or some column chunk has fewer than
two whitespace tokens; a missing `create table` prefix is not detected and
does not prevent a Table from being returned. -/
theorem initViaSql_failure_characterization (s : String) :
    initViaSql s = none ↔
      (columnChunks s = none ∨
        ∃ chunks, columnChunks s = some chunks ∧
          ∃ ch ∈ chunks, (splitWhitespaceL (trimL ch)).length < 2) := by
  unfold initViaSql columnChunks
  cases hp : parseHead s with
  | none => simp
  | some p =>
    simp only [Option.map_some', Option.some_bind, Option.some.injEq]
    constructor
    · intro h
      cases hm : mapOption parseColumn p.2 with
      | some cols => rw [hm] at h; simp at h
      | none =>
        obtain ⟨ch, hch, hnone⟩ := mapOption_eq_none.mp hm
        exact Or.inr ⟨p.2, rfl, ch, hch, parseColumn_eq_none.mp hnone⟩
    · rintro (h | ⟨chunks, hchunks, ch, hch, hlt⟩)
      · exact absurd h (by simp)
      · subst hchunks
        rw [mapOption_eq_none.mpr ⟨ch, hch, parseColumn_eq_none.mpr hlt⟩]
        rfl

/-- C6: the worked example of the specification, checked end to end. -/
theorem parse_example_two_columns :
    initViaSql "create table t (id number(10) primary key, name varchar(255))" =
      some { name := "t"
             columns :=
               [{ name := "id", column_type := "number", length := some 10,
                  decimal_places := none, is_nullable := false, is_pkey := true,
                  ref_table := none, ref_column := none },
                { name := "name", column_type := "varchar", length := some 255,
                  decimal_places := none, is_nullable := true, is_pkey := false,
                  ref_table := none, ref_column := none }]
             comment := none } := by decide

/-- C7: the start of a synthesized BETWEEN clause (base date 2021-01-01 plus
a 0–2 day offset) never exceeds its end (the current local date), provided
the current date is on or after the base date plus the maximum offset. -/
theorem between_start_le_end (d : Draw) (today : Nat)
    (hoff : d.dayOff < 3) (htoday : betweenStart 2 ≤ today) :
    betweenStart d.dayOff ≤ today := by
  unfold betweenStart at htoday ⊢
  omega

/-- C7 witness: a concrete draw with the maximal offset against the earliest
permitted current date. -/
theorem between_start_le_end_witness :
    betweenStart (Draw.dayOff ⟨5, 0, 2, fun _ => 0, 2⟩) ≤ betweenStart 2 :=
  between_start_le_end ⟨5, 0, 2, fun _ => 0, 2⟩ (betweenStart 2)
    (by decide) (Nat.le_refl _)

/-- C4 counterexample: a table whose only column has an opaque type renders
Select with the WHERE keyword kept and an empty predicate — `WHERE ;` is
neither an omitted WHERE clause nor a tautological placeholder, and is not
syntactically valid SQL. -/
theorem empty_predicate_renders_bare_where :
    generateWhereClause 0 ⟨"t", [⟨"x", "blob", none, none, true, false, none, none⟩], none⟩
        (fun _ => ⟨5, 0, 2, fun _ => 0, 0⟩) = "" ∧
    generateSelect 0 ⟨"t", [⟨"x", "blob", none, none, true, false, none, none⟩], none⟩
        (fun _ => ⟨5, 0, 2, fun _ => 0, 0⟩) = "SELECT x FROM t WHERE ;" := by
  refine ⟨by decide, by decide⟩

/-- C4 (amended): when every column type is opaque the predicate is the empty
string, and Select, Update and Delete all render `... WHERE ;` — the WHERE
keyword is kept with an empty predicate (consistently across the three
statement kinds), and no fatal error occurs. -/
theorem opaque_columns_where_clause (today : Nat) (t : Table)
    (randS randW : Nat → Draw)
    (h : ∀ c ∈ t.columns, opaqueType c.column_type) :
    generateWhereClause today t randW = "" ∧
    generateSelect today t randW =
      "SELECT " ++ joinSep ", " (t.columns.map Column.name) ++ " FROM " ++
        t.name ++ " WHERE ;" ∧
    generateUpdate today t randS randW =
      "UPDATE " ++ t.name ++ " SET " ++
        joinSep ", " (updateAssigns today t.columns randS 0) ++ " WHERE ;" ∧
    generateDelete today t randW = "DELETE FROM " ++ t.name ++ " WHERE ;" := by
  have hwc : generateWhereClause today t randW = "" := by
    unfold generateWhereClause
    rw [whereConds_eq_nil t.columns randW 0 h]
    rfl
  refine ⟨hwc, ?_, ?_, ?_⟩
  · unfold generateSelect
    rw [hwc, String.append_empty, String.append_assoc]
    rfl
  · unfold generateUpdate
    rw [hwc, String.append_empty, String.append_assoc]
    rfl
  · unfold generateDelete
    rw [hwc, String.append_empty, String.append_assoc]
    rfl

/-- C4 witness: the amended statement at a concrete one-column opaque
table. -/
theorem opaque_columns_where_clause_witness :
    generateWhereClause 0 ⟨"t", [⟨"x", "blob", none, none, true, false, none, none⟩], none⟩
        (fun _ => ⟨7, 0, 2, fun _ => 0, 0⟩) = "" ∧
    generateSelect 0 ⟨"t", [⟨"x", "blob", none, none, true, false, none, none⟩], none⟩
        (fun _ => ⟨7, 0, 2, fun _ => 0, 0⟩) =
      "SELECT " ++ joinSep ", "
          ((⟨"t", [⟨"x", "blob", none, none, true, false, none, none⟩], none⟩ : Table).columns.map
            Column.name) ++ " FROM " ++ "t" ++ " WHERE ;" ∧
    generateUpdate 0 ⟨"t", [⟨"x", "blob", none, none, true, false, none, none⟩], none⟩
        (fun _ => ⟨7, 0, 2, fun _ => 0, 0⟩) (fun _ => ⟨7, 0, 2, fun _ => 0, 0⟩) =
      "UPDATE " ++ "t" ++ " SET " ++
        joinSep ", " (updateAssigns 0
          (⟨"t", [⟨"x", "blob", none, none, true, false, none, none⟩], none⟩ : Table).columns
          (fun _ => ⟨7, 0, 2, fun _ => 0, 0⟩) 0) ++ " WHERE ;" ∧
    generateDelete 0 ⟨"t", [⟨"x", "blob", none, none, true, false, none, none⟩], none⟩
        (fun _ => ⟨7, 0, 2, fun _ => 0, 0⟩) = "DELETE FROM " ++ "t" ++ " WHERE ;" :=
  opaque_columns_where_clause 0
    ⟨"t", [⟨"x", "blob", none, none, true, false, none, none⟩], none⟩
    (fun _ => ⟨7, 0, 2, fun _ => 0, 0⟩) (fun _ => ⟨7, 0, 2, fun _ => 0, 0⟩)
    (by decide)

/-- C5: the CreateTable rendering equals the spec-described form: the
`CREATE TABLE <name> (` header, each column rendered
`name type[(length[,decimalPlaces])][ NOT NULL][ PRIMARY KEY]` with a
trailing `, ` exactly for the columns whose name differs from the last
column's name, then `);`. -/
theorem createTable_render_spec (t : Table) (lastCol : Column)
    (h : t.columns.getLast? = some lastCol) :
    createTableSql t = some (specCreateTable t lastCol.name) := by
  have hcl : ∀ c : Column, createColumnClause lastCol.name c =
      specColumnClause c ++ (if c.name = lastCol.name then "" else ", ") := by
    intro c
    have hsep : (if lastCol.name ≠ c.name then ", " else "") =
        (if c.name = lastCol.name then "" else ", ") := by
      by_cases hc : c.name = lastCol.name
      · rw [if_neg (fun hne => hne hc.symm), if_pos hc]
      · rw [if_pos (fun he => hc he.symm), if_neg hc]
    unfold createColumnClause specColumnClause
    rw [hsep]
  simp only [createTableSql, h]
  rw [foldl_append_concatAll, funext hcl]
  rfl

/-- C5 witness: the two-column table of the repository's own unit test. -/
theorem createTable_render_spec_witness :
    createTableSql ⟨"test_table",
        [⟨"id", "number", some 10, none, false, true, none, none⟩,
         ⟨"name", "varchar", some 255, none, true, false, none, none⟩], none⟩ =
      some (specCreateTable ⟨"test_table",
        [⟨"id", "number", some 10, none, false, true, none, none⟩,
         ⟨"name", "varchar", some 255, none, true, false, none, none⟩], none⟩ "name") :=
  createTable_render_spec _ ⟨"name", "varchar", some 255, none, true, false, none, none⟩
    (by decide)

/-- Every column of a parsed table is the output of the per-chunk loop body
on some chunk. -/
theorem initViaSql_columns_from_parseColumn {s : String} {t : Table}
    (hst : initViaSql s = some t) :
    ∀ c ∈ t.columns, ∃ chunk, parseColumn chunk = some c := by
  intro c hc
  unfold initViaSql at hst
  cases hp : parseHead s with
  | none => rw [hp] at hst; exact absurd hst (by simp)
  | some p =>
    rw [hp] at hst
    simp only [Option.some_bind] at hst
    cases hm : mapOption parseColumn p.2 with
    | none => rw [hm] at hst; exact absurd hst (by simp)
    | some cols =>
      rw [hm] at hst
      simp only [Option.map_some', Option.some.injEq] at hst
      subst hst
      obtain ⟨chunk, _, hpc⟩ := mapOption_mem hm c hc
      exact ⟨chunk, hpc⟩

/-- C8 counterexample: in the chunk `id int key primary` the token `primary`
is never followed by `key`, yet the parser marks the column as a primary key
— token order is ignored. -/
theorem pkey_order_independent_counterexample :
    initViaSql "create table t (id int key primary)" =
      some { name := "t"
             columns := [{ name := "id", column_type := "int", length := none,
                           decimal_places := none, is_nullable := false,
                           is_pkey := true, ref_table := none, ref_column := none }]
             comment := none } ∧
    splitWhitespaceL (trimL "id int key primary".data) =
      ["id", "int", "key", "primary"] ∧
    specOrderedPrimaryKey ["id", "int", "key", "primary"] = false := by decide

/-- C8 (amended): a parsed column is a primary key exactly when its token
list contains both `primary` and `key`, in either order; and for every
parsed column — hence for every column of every parsed table — nullability
is the negation of the primary-key flag. -/
theorem pkey_token_characterization :
    (∀ (chunk : List Char) (c : Column), parseColumn chunk = some c →
      ((c.is_pkey = true ↔
          ("primary" ∈ splitWhitespaceL (trimL chunk) ∧
            "key" ∈ splitWhitespaceL (trimL chunk))) ∧
        c.is_nullable = !c.is_pkey)) ∧
    (∀ (s : String) (t : Table), initViaSql s = some t →
      ∀ c ∈ t.columns, c.is_nullable = !c.is_pkey) := by
  have hpart1 : ∀ (chunk : List Char) (c : Column), parseColumn chunk = some c →
      ((c.is_pkey = true ↔
          ("primary" ∈ splitWhitespaceL (trimL chunk) ∧
            "key" ∈ splitWhitespaceL (trimL chunk))) ∧
        c.is_nullable = !c.is_pkey) := by
    intro chunk c hpc
    obtain ⟨name, typeTok, rest, htk, hc⟩ := parseColumn_eq_some hpc
    subst hc
    rw [htk]
    refine ⟨?_, rfl⟩
    simp [Bool.and_eq_true, List.elem_iff]
  refine ⟨hpart1, ?_⟩
  intro s t hst c hc
  obtain ⟨chunk, hpc⟩ := initViaSql_columns_from_parseColumn hst c hc
  exact (hpart1 chunk c hpc).2

/-- C8 witness: the chunk `id int primary key` parses to a non-nullable
primary-key column, and both tokens are present. -/
theorem pkey_token_characterization_witness :
    ((⟨"id", "int", none, none, false, true, none, none⟩ : Column).is_pkey = true ↔
      ("primary" ∈ splitWhitespaceL (trimL "id int primary key".data) ∧
        "key" ∈ splitWhitespaceL (trimL "id int primary key".data))) ∧
    (⟨"id", "int", none, none, false, true, none, none⟩ : Column).is_nullable =
      !(⟨"id", "int", none, none, false, true, none, none⟩ : Column).is_pkey :=
  pkey_token_characterization.1 "id int primary key".data
    ⟨"id", "int", none, none, false, true, none, none⟩ (by decide)

/-- C9 counterexample: with the unspaced fragment
`references customers(customer_id)` the whole `customers(customer_id)` text
is one whitespace token, so the parser stores it verbatim as `ref_table` and
leaves `ref_column` empty — not the referenced table/column names the claim
requires. -/
theorem references_unspaced_counterexample :
    initViaSql "create table t (id int references customers(customer_id))" =
      some { name := "t"
             columns := [{ name := "id", column_type := "int", length := none,
                           decimal_places := none, is_nullable := true,
                           is_pkey := false,
                           ref_table := some "customers(customer_id)",
                           ref_column := none }]
             comment := none } := by decide

/-- C9 (amended): `parse_references` takes the token after the first literal
token `references` verbatim as `ref_table` and the token after that, with
surrounding parentheses stripped, as `ref_column` (each `None` when missing);
when no `references` token occurs, both are `None`.  The claim's behaviour
holds only for the spaced form `references <table> (<column>)`, where table
and column are separate tokens. -/
theorem parse_references_characterization :
    (∀ tokens : List String, "references" ∉ tokens →
      parseReferences tokens = (none, none)) ∧
    (∀ (ts : List String) (tbl col : String) (post : List String),
      "references" ∉ ts →
      parseReferences (ts ++ "references" :: tbl :: col :: post) =
        (some tbl, some (trimParens col))) := by
  constructor
  · intro tokens
    induction tokens with
    | nil => intro _; rfl
    | cons t rest ih =>
      intro h
      unfold parseReferences
      rw [if_neg (fun he => h (List.mem_cons.mpr (Or.inl he.symm)))]
      exact ih (fun hm => h (List.mem_cons.mpr (Or.inr hm)))
  · intro ts tbl col post
    induction ts with
    | nil =>
      intro _
      simp only [List.nil_append]
      unfold parseReferences
      rw [if_pos rfl]
      rfl
    | cons t rest ih =>
      intro h
      simp only [List.cons_append]
      unfold parseReferences
      rw [if_neg (fun he => h (List.mem_cons.mpr (Or.inl he.symm)))]
      exact ih (fun hm => h (List.mem_cons.mpr (Or.inr hm)))

/-- C9 witness: the spaced fragment `references customers (customer_id)`
yields the table name and the paren-stripped column name. -/
theorem parse_references_characterization_witness :
    parseReferences ["id", "int", "references", "customers", "(customer_id)"] =
      (some "customers", some "customer_id") :=
  parse_references_characterization.2 ["id", "int"] "customers" "(customer_id)" []
    (by decide)

/-- C10 counterexample: in `number(99999999999,2)` the length digit run
overflows `i32`, so `parse::<i32>().ok()` yields `None` for `length` while
`decimal_places` still parses to `Some 2` — the parsed column violates the
claimed invariant (and the CreateTable rendering would silently drop the
`2`). -/
theorem decimal_without_length_overflow :
    initViaSql "create table t (x number(99999999999,2))" =
      some { name := "t"
             columns := [{ name := "x", column_type := "number", length := none,
                           decimal_places := some 2, is_nullable := true,
                           is_pkey := false, ref_table := none, ref_column := none }]
             comment := none } := by decide

/-- C10 (amended): for every parsed column, if `decimal_places` is present
and the second alphanumeric run of the column's type descriptor parses as an
`i32`, then `length` is present as well; and every column of a parsed table
arises from the per-chunk loop body, so the invariant transfers to
`init_via_sql` output. -/
theorem decimal_implies_length_parseable :
    (∀ (chunk : List Char) (c : Column), parseColumn chunk = some c →
      c.decimal_places.isSome = true →
      parseI32 ((findRuns (((splitWhitespaceL (trimL chunk)).getD 1 "").data)).getD 1 [])
          ≠ none →
      c.length.isSome = true) ∧
    (∀ (s : String) (t : Table), initViaSql s = some t →
      ∀ c ∈ t.columns, ∃ chunk, parseColumn chunk = some c) := by
  refine ⟨?_, fun s t hst => initViaSql_columns_from_parseColumn hst⟩
  intro chunk c hpc hdp hlen
  obtain ⟨name, typeTok, rest, htk, hc⟩ := parseColumn_eq_some hpc
  subst hc
  rw [htk] at hlen
  have hdp' : (((findRuns typeTok.data).get? 2).bind parseI32).isSome = true := hdp
  have hlen' : parseI32 ((findRuns typeTok.data).getD 1 []) ≠ none := hlen
  cases hg2 : (findRuns typeTok.data).get? 2 with
  | none => rw [hg2] at hdp'; exact absurd hdp' (by simp)
  | some r2 =>
    have hlt : 2 < (findRuns typeTok.data).length := by
      by_contra hle
      rw [List.get?_eq_none.mpr (by omega)] at hg2
      exact Option.noConfusion hg2
    cases hg1 : (findRuns typeTok.data).get? 1 with
    | none =>
      rw [List.get?_eq_none] at hg1
      omega
    | some r1 =>
      have hgd : (findRuns typeTok.data).getD 1 [] = r1 := by
        show ((findRuns typeTok.data).get? 1).getD [] = r1
        rw [hg1]
        rfl
      show ((some r1).bind parseI32).isSome = true
      simp only [Option.some_bind]
      cases hpi : parseI32 r1 with
      | none => rw [hgd, hpi] at hlen'; exact absurd rfl hlen'
      | some v => simp

/-- C10 witness: the normalized chunk `x number(10.2)` has a parseable
length run, and its parsed column indeed carries `length = Some 10`. -/
theorem decimal_implies_length_parseable_witness :
    (⟨"x", "number", some 10, some 2, true, false, none, none⟩ : Column).length.isSome
      = true :=
  decimal_implies_length_parseable.1 "x number(10.2)".data
    ⟨"x", "number", some 10, some 2, true, false, none, none⟩
    (by decide) (by decide) (by decide)

end FakeSql
